import Mathlib

/-!
Verification of the inspection-management web application `src/app.py`.

Shallow embedding conventions:
* Python floats are modelled as rationals (`ℚ`); the constants involved
  (depreciation percentages, fee/rate arithmetic) are exact decimals.
* SQLAlchemy tables are modelled as lists of rows (structures); SQL
  `MAX` ignores NULLs, modelled by `Option` and `filterMap`.
* Python strings are `String` or `List Char` where character-level
  reasoning is needed; `None`-able columns are `Option`.
* Request handlers become pure functions from (session, form, table
  state) to (new table state, response).
-/

namespace App

/-- Model of a `datetime` value; only the `year` component is consumed by
the code under verification (`strftime('%Y', ...)`, `.year`). -/
structure DateTime where
  year : Int
deriving DecidableEq, Repr

/-- The depreciation schedule read from `app.config["DEPR_RULE"]`. -/
structure DeprRule where
  Y1 : ℚ
  Y2 : ℚ
  Y3 : ℚ
  Y4PLUS : ℚ
  CAP : ℚ
deriving DecidableEq, Repr

/-- `app.config["DEPR_RULE"] = dict(Y1=10.0, Y2=8.0, Y3=7.0, Y4PLUS=5.0, CAP=70.0)`
(src/app.py line 28). -/
def DEPR_RULE : DeprRule := ⟨10, 8, 7, 5, 70⟩

/-- Embedding of `compute_depreciation_pct` (src/app.py lines 292-307).
`if not year_of_manufacture` is true exactly for the integer 0 (callers
pass `i.year_of_manufacture or 0`, so `None` arrives as 0). -/
def compute_depreciation_pct (r : DeprRule) (year_of_manufacture : Int)
    (on_date : DateTime) : ℚ :=
  if year_of_manufacture = 0 then 0
  else
    let years : Int := max 0 (on_date.year - year_of_manufacture)
    let pct : ℚ := 0
    let pct := if 1 ≤ years then pct + r.Y1 else pct
    let pct := if 2 ≤ years then pct + r.Y2 else pct
    let pct := if 3 ≤ years then pct + r.Y3 else pct
    let pct := if 4 ≤ years then pct + r.Y4PLUS * ((years : ℚ) - 3) else pct
    min pct r.CAP

/-- The age-indexed sum the specification describes for the default rule. -/
def deprSumDefault (age : Int) : ℚ :=
  (if 1 ≤ age then (10 : ℚ) else 0) + (if 2 ≤ age then (8 : ℚ) else 0) +
  (if 3 ≤ age then (7 : ℚ) else 0) +
  (if 4 ≤ age then (5 : ℚ) * ((age : ℚ) - 3) else 0)

lemma compute_depreciation_pct_eq_sum (y : Int) (d : DateTime) (hy : y ≠ 0) :
    compute_depreciation_pct DEPR_RULE y d
      = min (deprSumDefault (max 0 (d.year - y))) 70 := by
  simp only [compute_depreciation_pct, DEPR_RULE, deprSumDefault, if_neg hy]
  congr 1
  split_ifs <;> first | (exfalso; omega) | (push_cast; ring)

lemma deprSumDefault_nonneg (a : Int) : 0 ≤ deprSumDefault a := by
  unfold deprSumDefault
  split_ifs <;>
    first
      | (have hc : (4 : ℚ) ≤ (a : ℚ) := by exact_mod_cast (show (4 : Int) ≤ a by assumption)
         linarith)
      | norm_num

lemma deprSumDefault_mono {a b : Int} (hab : a ≤ b) :
    deprSumDefault a ≤ deprSumDefault b := by
  unfold deprSumDefault
  have hca : ((a : ℚ)) ≤ (b : ℚ) := by exact_mod_cast hab
  have t1 : (if 1 ≤ a then (10 : ℚ) else 0) ≤ (if 1 ≤ b then (10 : ℚ) else 0) := by
    split_ifs with ha hb hb
    · exact le_rfl
    · exact absurd (ha.trans hab) hb
    · norm_num
    · exact le_rfl
  have t2 : (if 2 ≤ a then (8 : ℚ) else 0) ≤ (if 2 ≤ b then (8 : ℚ) else 0) := by
    split_ifs with ha hb hb
    · exact le_rfl
    · exact absurd (ha.trans hab) hb
    · norm_num
    · exact le_rfl
  have t3 : (if 3 ≤ a then (7 : ℚ) else 0) ≤ (if 3 ≤ b then (7 : ℚ) else 0) := by
    split_ifs with ha hb hb
    · exact le_rfl
    · exact absurd (ha.trans hab) hb
    · norm_num
    · exact le_rfl
  have t4 : (if 4 ≤ a then (5 : ℚ) * ((a : ℚ) - 3) else 0)
      ≤ (if 4 ≤ b then (5 : ℚ) * ((b : ℚ) - 3) else 0) := by
    split_ifs with ha hb hb
    · linarith
    · exact absurd (ha.trans hab) hb
    · have hcb : (4 : ℚ) ≤ (b : ℚ) := by exact_mod_cast hb
      linarith
    · exact le_rfl
  linarith

/-- C2: `compute_depreciation_pct` under the default rule returns 0 for a
zero (absent) year of manufacture, and otherwise the capped piecewise sum
`min 70 ((age≥1 → +10) + (age≥2 → +8) + (age≥3 → +7) + (age≥4 → +5·(age−3)))`
with `age = max 0 (d.year − y)`. -/
theorem compute_depreciation_pct_spec (y : Int) (d : DateTime) :
    compute_depreciation_pct DEPR_RULE y d
      = if y = 0 then 0 else min 70 (deprSumDefault (max 0 (d.year - y))) := by
  by_cases hy : y = 0
  · simp [compute_depreciation_pct, hy]
  · rw [if_neg hy, compute_depreciation_pct_eq_sum y d hy, min_comm]

/-- C10: under the default rule, for a nonzero year of manufacture the
depreciation percentage is monotone non-decreasing in the date's year and
always lies in the interval [0, 70]. -/
theorem compute_depreciation_pct_monotone_bounded (y : Int) (d1 d2 : DateTime)
    (hy : y ≠ 0) (hd : d1.year ≤ d2.year) :
    compute_depreciation_pct DEPR_RULE y d1 ≤ compute_depreciation_pct DEPR_RULE y d2
      ∧ 0 ≤ compute_depreciation_pct DEPR_RULE y d1
      ∧ compute_depreciation_pct DEPR_RULE y d1 ≤ 70 := by
  rw [compute_depreciation_pct_eq_sum y d1 hy, compute_depreciation_pct_eq_sum y d2 hy]
  refine ⟨?_, ?_, ?_⟩
  · exact min_le_min (deprSumDefault_mono (by omega)) le_rfl
  · exact le_min (deprSumDefault_nonneg _) (by norm_num)
  · exact min_le_right _ _

/-- Witness for C10 at year of manufacture 2020, dates 2023 and 2025. -/
theorem compute_depreciation_pct_monotone_bounded_witness :
    compute_depreciation_pct DEPR_RULE 2020 ⟨2023⟩ ≤ compute_depreciation_pct DEPR_RULE 2020 ⟨2025⟩
      ∧ 0 ≤ compute_depreciation_pct DEPR_RULE 2020 ⟨2023⟩
      ∧ compute_depreciation_pct DEPR_RULE 2020 ⟨2023⟩ ≤ 70 :=
  compute_depreciation_pct_monotone_bounded 2020 ⟨2023⟩ ⟨2025⟩ (by decide) (by decide)

/-! ## Dictionaries and the audit-log diffing helper -/

/-- `d.get(k)` on a Python dict modelled as an association list. -/
def dget {K V : Type} [DecidableEq K] (d : List (K × V)) (k : K) : Option V :=
  (d.find? (fun p => decide (p.1 = k))).map Prod.snd

/-- The loop body of `dict_diff`: the entry produced for one key of the
union of the two key sets. -/
def diffEntry {K V : Type} [DecidableEq K] [DecidableEq V]
    (before after : List (K × V)) (k : K) : Option (K × (Option V × Option V)) :=
  if dget before k ≠ dget after k then some (k, (dget before k, dget after k))
  else none

/-- Embedding of `dict_diff` (src/app.py lines 348-354): over the union of
the key sets of `before` and `after`, keep exactly the keys whose values
differ, each mapped to the pair (old value, new value). -/
def dict_diff {K V : Type} [DecidableEq K] [DecidableEq V]
    (before after : List (K × V)) : List (K × (Option V × Option V)) :=
  ((before.map Prod.fst ++ after.map Prod.fst).dedup).filterMap
    (diffEntry before after)

lemma diffEntry_key {K V : Type} [DecidableEq K] [DecidableEq V]
    (before after : List (K × V)) (k : K) (x : K × (Option V × Option V))
    (hx : diffEntry before after k = some x) : x.1 = k := by
  unfold diffEntry at hx
  split_ifs at hx with h
  cases hx
  rfl

lemma dget_eq_none_of_not_mem_keys {K V : Type} [DecidableEq K]
    {d : List (K × V)} {k : K} (h : k ∉ d.map Prod.fst) : dget d k = none := by
  unfold dget
  rw [List.find?_eq_none.mpr]
  · rfl
  · intro p hp
    simp only [decide_eq_true_eq]
    exact fun he => h (List.mem_map.mpr ⟨p, hp, he⟩)

lemma find?_filterMap_of_none {K V : Type} [DecidableEq K]
    (g : K → Option (K × V)) (hg : ∀ k x, g k = some x → x.1 = k)
    (l : List K) (k : K) (hk : g k = none) :
    (l.filterMap g).find? (fun p => decide (p.1 = k)) = none := by
  rw [List.find?_eq_none]
  intro x hx
  obtain ⟨a, _, hga⟩ := List.mem_filterMap.mp hx
  simp only [decide_eq_true_eq]
  intro hxk
  have hak : a = k := by rw [← hg a x hga, hxk]
  rw [hak, hk] at hga
  cases hga

lemma find?_filterMap_of_mem {K V : Type} [DecidableEq K]
    (g : K → Option (K × V)) (hg : ∀ k x, g k = some x → x.1 = k)
    (l : List K) (k : K) (x : K × V) (hk : k ∈ l) (hx : g k = some x) :
    (l.filterMap g).find? (fun p => decide (p.1 = k)) = some x := by
  induction l with
  | nil => cases hk
  | cons a t ih =>
    by_cases hak : a = k
    · subst hak
      simp only [List.filterMap_cons, hx]
      exact List.find?_cons_of_pos _ (by simp [hg a x hx])
    · have hk' : k ∈ t := by
        rcases List.mem_cons.mp hk with h | h
        · exact absurd h.symm hak
        · exact h
      cases hga : g a with
      | none =>
        simp only [List.filterMap_cons, hga]
        exact ih hk'
      | some y =>
        simp only [List.filterMap_cons, hga]
        rw [List.find?_cons_of_neg]
        · exact ih hk'
        · simp [hg a y hga, hak]

/-- C5: `dict_diff` maps a key to the pair [old, new] exactly when the two
dicts disagree at that key, and diffing a dict against itself is empty. -/
theorem dict_diff_spec {K V : Type} [DecidableEq K] [DecidableEq V]
    (before after : List (K × V)) (k : K) :
    dget (dict_diff before after) k
      = (if dget before k = dget after k then none
         else some (dget before k, dget after k))
    ∧ dict_diff before before = [] := by
  constructor
  · by_cases h : dget before k = dget after k
    · rw [if_pos h]
      unfold dget dict_diff
      rw [find?_filterMap_of_none _ (diffEntry_key before after) _ _
        (by simp [diffEntry, h])]
      rfl
    · rw [if_neg h]
      have hmem : k ∈ (before.map Prod.fst ++ after.map Prod.fst).dedup := by
        rw [List.mem_dedup, List.mem_append]
        by_contra hc
        push_neg at hc
        exact h (by rw [dget_eq_none_of_not_mem_keys hc.1,
          dget_eq_none_of_not_mem_keys hc.2])
      unfold dget dict_diff
      rw [find?_filterMap_of_mem _ (diffEntry_key before after) _ _
        (k, (dget before k, dget after k)) hmem (by simp [diffEntry, h])]
      rfl
  · unfold dict_diff
    rw [List.filterMap_eq_nil_iff]
    intro a _
    simp [diffEntry]

/-! ## Sessions and the role gate -/

/-- The parts of the Flask session the code reads. -/
structure Session where
  user_id : Option Nat
  role : Option String
deriving DecidableEq, Repr

/-- Outcome of the `role_required` wrapper around a handler. -/
inductive GateResult (α : Type) where
  | redirectLogin
  | redirectDashboard
  | proceed (a : α)
deriving DecidableEq, Repr

/-- Python truthiness of `session.get("user_id")`: `None` and `0` are falsy. -/
def truthyId : Option Nat → Bool
  | none => false
  | some n => n != 0

/-- `session.get("role") not in roles`: a missing role is in no list. -/
def roleNotIn : Option String → List String → Bool
  | none, _ => true
  | some r, roles => !(roles.contains r)

/-- Embedding of the `role_required` decorator's wrapper (src/app.py lines
237-250): no (truthy) `user_id` in the session redirects to login; a role
outside the nonempty allowed set redirects to the dashboard; otherwise the
wrapped handler runs on the application state. -/
def role_required {σ α : Type} (roles : List String) (sess : Session)
    (handler : σ → σ × α) (st : σ) : σ × GateResult α :=
  if !(truthyId sess.user_id) then (st, GateResult.redirectLogin)
  else if !(roles.isEmpty) && roleNotIn sess.role roles then
    (st, GateResult.redirectDashboard)
  else
    let r := handler st
    (r.1, GateResult.proceed r.2)

/-- C6: a request with no session `user_id` is redirected to login, and a
logged-in request whose role is outside the handler's allowed role set is
redirected to the dashboard; in both cases the handler does not run and
the application state is returned unchanged. -/
theorem role_required_gates {σ α : Type} (roles : List String)
    (sess : Session) (handler : σ → σ × α) (st : σ) :
    (sess.user_id = none →
        role_required roles sess handler st = (st, GateResult.redirectLogin))
    ∧ (∀ uid, sess.user_id = some uid → uid ≠ 0 → roles ≠ [] →
        sess.role ∉ roles.map some →
        role_required roles sess handler st = (st, GateResult.redirectDashboard)) := by
  constructor
  · intro h
    simp [role_required, truthyId, h]
  · intro uid hu h0 hro hnotin
    have h1 : truthyId sess.user_id = true := by simp [truthyId, hu, h0]
    have h2 : roleNotIn sess.role roles = true := by
      cases hr : sess.role with
      | none => rfl
      | some r =>
        have hrr : r ∉ roles := by
          intro hmem
          exact hnotin (by rw [hr] at hnotin ⊢; exact List.mem_map_of_mem some hmem)
        simp [roleNotIn, hrr]
    have h3 : roles.isEmpty = false := by
      cases roles with
      | nil => exact absurd rfl hro
      | cons a t => rfl
    simp [role_required, h1, h2, h3]

/-- Witness for C6 with an anonymous session and a logged-in accountant
hitting an admin-only page. -/
theorem role_required_gates_witness :
    ((Session.mk none none).user_id = none →
        role_required ["ADMIN"] (Session.mk none none) (fun (n : Nat) => (n + 1, "page")) 0
          = (0, GateResult.redirectLogin))
    ∧ (∀ uid, (Session.mk none none).user_id = some uid → uid ≠ 0 → ["ADMIN"] ≠ [] →
        (Session.mk none none).role ∉ (["ADMIN"] : List String).map some →
        role_required ["ADMIN"] (Session.mk none none) (fun (n : Nat) => (n + 1, "page")) 0
          = (0, GateResult.redirectDashboard)) :=
  role_required_gates ["ADMIN"] (Session.mk none none) (fun (n : Nat) => (n + 1, "page")) 0

/-! ## Report file uploads -/

/-- `ALLOWED_REPORT_EXT = {"pdf", "doc", "docx"}` (src/app.py line 24). -/
def ALLOWED_REPORT_EXT : List (List Char) :=
  ["pdf".toList, "doc".toList, "docx".toList]

/-- `filename.rsplit(".", 1)[1]`: the characters after the last dot (the
callers guard that a dot is present). -/
def rsplitAfterLastDot (cs : List Char) : List Char :=
  (cs.reverse.takeWhile (fun c => c != '.')).reverse

/-- Embedding of `allowed_report_file` (src/app.py lines 269-273). -/
def allowed_report_file (filename : List Char) : Bool :=
  if filename = [] ∨ '.' ∉ filename then false
  else decide ((rsplitAfterLastDot filename).map Char.toLower ∈ ALLOWED_REPORT_EXT)

/-- The acceptance condition as the specification words it: a non-empty
name that decomposes around its last dot into a stem and a dot-free
extension whose lowercasing is pdf, doc or docx. -/
def allowedSpec (filename : List Char) : Prop :=
  filename ≠ [] ∧ ∃ stem ext, filename = stem ++ '.' :: ext ∧ '.' ∉ ext ∧
    ext.map Char.toLower ∈ ALLOWED_REPORT_EXT

/-- A stored report-file row (the fields the upload branch sets). -/
structure ReportFileRow where
  inspection_id : Nat
  uploader_id : Option Nat
  original_name : String
deriving DecidableEq, Repr

/-- The state the upload branch of `report_edit` can touch. -/
structure UploadState where
  files : List ReportFileRow
  saved : List String
  inspection_status : String
  report_status : String
deriving DecidableEq, Repr

inductive UploadResult where
  | invalidTypeWarning
  | uploaded
deriving DecidableEq, Repr

/-- Embedding of the file-upload branch of `report_edit` (src/app.py lines
793-817): an invalid extension flashes a warning and redirects without
touching any state; otherwise the file is saved, a `ReportFile` row is
added, and the inspection/report statuses are advanced. -/
def report_edit_upload (inspection_id : Nat) (uploader : Option Nat)
    (filename : List Char) (st : UploadState) : UploadState × UploadResult :=
  if ¬ allowed_report_file filename then (st, UploadResult.invalidTypeWarning)
  else
    ({ files := st.files ++ [⟨inspection_id, uploader, String.mk filename⟩],
       saved := st.saved ++ [String.mk filename],
       inspection_status := "REPORT_UPLOADED",
       report_status := "FINAL" }, UploadResult.uploaded)

lemma takeWhile_append_cons {α : Type} (p : α → Bool) (l1 : List α) (c : α)
    (l2 : List α) (h1 : ∀ x ∈ l1, p x = true) (hc : p c = false) :
    (l1 ++ c :: l2).takeWhile p = l1 := by
  induction l1 with
  | nil =>
    rw [List.nil_append, List.takeWhile_cons_of_neg (by simp [hc])]
  | cons a t ih =>
    have ha : p a = true := h1 a (List.mem_cons_self a t)
    rw [List.cons_append, List.takeWhile_cons_of_pos ha]
    rw [ih (fun x hx => h1 x (List.mem_cons_of_mem a hx))]

lemma dropWhile_of_mem_dot (l : List Char) (h : '.' ∈ l) :
    ∃ r, l.dropWhile (fun c => c != '.') = '.' :: r := by
  induction l with
  | nil => cases h
  | cons a t ih =>
    by_cases ha : a = '.'
    · subst ha
      exact ⟨t, by rw [List.dropWhile_cons_of_neg (by simp)]⟩
    · have hmem : '.' ∈ t := by
        rcases List.mem_cons.mp h with hh | hh
        · exact absurd hh.symm ha
        · exact hh
      obtain ⟨r, hr⟩ := ih hmem
      refine ⟨r, ?_⟩
      rw [List.dropWhile_cons_of_pos (by simp [ha]), hr]

lemma rsplitAfterLastDot_of_split (stem ext : List Char) (hext : '.' ∉ ext) :
    rsplitAfterLastDot (stem ++ '.' :: ext) = ext := by
  have hall : ∀ x ∈ ext.reverse, ((x != '.') = true) := by
    intro x hx
    have hxm : x ∈ ext := List.mem_reverse.mp hx
    simp only [bne_iff_ne, ne_eq]
    exact fun hxe => hext (hxe ▸ hxm)
  unfold rsplitAfterLastDot
  rw [List.reverse_append, List.reverse_cons, List.append_assoc,
    List.singleton_append]
  rw [takeWhile_append_cons (fun c => c != '.') ext.reverse '.' stem.reverse
    hall (by simp)]
  exact List.reverse_reverse ext

lemma exists_split_of_mem_dot (l : List Char) (h : '.' ∈ l) :
    ∃ stem, l = stem ++ '.' :: rsplitAfterLastDot l ∧
      '.' ∉ rsplitAfterLastDot l := by
  have hrev : '.' ∈ l.reverse := List.mem_reverse.mpr h
  obtain ⟨r, hr⟩ := dropWhile_of_mem_dot l.reverse hrev
  have hdecomp : l.reverse = l.reverse.takeWhile (fun c => c != '.') ++ '.' :: r := by
    conv_lhs => rw [← List.takeWhile_append_dropWhile (p := fun c => c != '.') (l := l.reverse)]
    rw [hr]
  have hnodot : '.' ∉ rsplitAfterLastDot l := by
    unfold rsplitAfterLastDot
    rw [List.mem_reverse]
    intro hmem
    have := List.mem_takeWhile_imp hmem
    simp at this
  refine ⟨r.reverse, ?_, hnodot⟩
  have h2 : l = (l.reverse.takeWhile (fun c => c != '.') ++ '.' :: r).reverse := by
    rw [← hdecomp, List.reverse_reverse]
  conv_lhs => rw [h2]
  unfold rsplitAfterLastDot
  rw [List.reverse_append, List.reverse_cons, List.append_assoc,
    List.singleton_append]

/-- C8: `allowed_report_file` accepts exactly the non-empty names whose
dot-free part after the last dot lowercases to pdf, doc or docx; on a
rejected name the upload branch stores nothing and redirects with a
warning, leaving the state unchanged. -/
theorem allowed_report_file_spec (inspection_id : Nat) (uploader : Option Nat)
    (filename : List Char) (st : UploadState) :
    (allowed_report_file filename = true ↔ allowedSpec filename)
    ∧ (allowed_report_file filename = false →
        report_edit_upload inspection_id uploader filename st
          = (st, UploadResult.invalidTypeWarning)) := by
  constructor
  · constructor
    · intro hall
      unfold allowed_report_file at hall
      split_ifs at hall with hcond
      push_neg at hcond
      obtain ⟨hne, hdot⟩ := hcond
      obtain ⟨stem, hsplit, hnodot⟩ := exists_split_of_mem_dot filename hdot
      refine ⟨hne, stem, rsplitAfterLastDot filename, hsplit, hnodot, ?_⟩
      simpa using hall
    · rintro ⟨hne, stem, ext, hsplit, hnodot, hmem⟩
      have hdot : '.' ∈ filename := by
        rw [hsplit]
        exact List.mem_append.mpr (Or.inr (List.mem_cons_self _ _))
      unfold allowed_report_file
      rw [if_neg (by push_neg; exact ⟨hne, hdot⟩)]
      have hext : rsplitAfterLastDot filename = ext := by
        rw [hsplit]
        exact rsplitAfterLastDot_of_split stem ext hnodot
      rw [hext]
      simpa using hmem
  · intro hfalse
    unfold report_edit_upload
    rw [if_pos (by simp [hfalse])]

/-- Witness for C8 at the rejected filename "virus.exe". -/
theorem allowed_report_file_spec_witness :
    (allowed_report_file "virus.exe".toList = true ↔ allowedSpec "virus.exe".toList)
    ∧ (allowed_report_file "virus.exe".toList = false →
        report_edit_upload 1 (some 2) "virus.exe".toList ⟨[], [], "DRAFT", "DRAFT"⟩
          = (⟨[], [], "DRAFT", "DRAFT"⟩, UploadResult.invalidTypeWarning)) :=
  allowed_report_file_spec 1 (some 2) "virus.exe".toList ⟨[], [], "DRAFT", "DRAFT"⟩

/-! ## Registration -/

/-- A row of the `user` table (the columns `register` sets). -/
structure User where
  name : String
  email : String
  password_hash : String
  role : String
deriving DecidableEq, Repr

/-- Stand-in for werkzeug's `generate_password_hash` (an external library
function; no claim depends on its value). -/
def generate_password_hash (pwd : String) : String := pwd

/-- Python `str.lower` (ASCII; emails here are ASCII). -/
def pyLower (s : String) : String := String.map Char.toLower s

/-- Embedding of the POST branch of `register` (src/app.py lines 365-395):
the first user ever registered becomes ADMIN; afterwards a logged-in ADMIN
may choose the submitted role (defaulting to ENGINEER), anyone else gets
ENGINEER; a duplicate email creates no user. -/
def register_post (users : List User) (sess : Session) (name email pwd : String)
    (form_role : Option String) : List User :=
  let first_user := users.isEmpty
  let is_admin := sess.role = some "ADMIN"
  let name' := name.trim
  let email' := pyLower email.trim
  let role := if first_user then "ADMIN"
              else if is_admin then form_role.getD "ENGINEER"
              else "ENGINEER"
  if (users.find? (fun u => u.email == email')).isSome then users
  else users ++ [⟨name', email', generate_password_hash pwd, role⟩]

/-- C9: registration gives the very first user role ADMIN regardless of the
submitted role; afterwards a non-ADMIN session always yields role ENGINEER,
a logged-in ADMIN gets the submitted role (default ENGINEER), and a
duplicate email creates no user. -/
theorem register_spec (users : List User) (sess : Session)
    (name email pwd : String) (form_role : Option String) :
    (users = [] → register_post users sess name email pwd form_role
        = [⟨name.trim, pyLower email.trim, generate_password_hash pwd, "ADMIN"⟩])
    ∧ (users ≠ [] → sess.role ≠ some "ADMIN" →
        ∀ u ∈ register_post users sess name email pwd form_role,
          u ∈ users ∨ u.role = "ENGINEER")
    ∧ (users ≠ [] → sess.role = some "ADMIN" →
        (∀ u ∈ users, u.email ≠ pyLower email.trim) →
        register_post users sess name email pwd form_role
          = users ++ [⟨name.trim, pyLower email.trim, generate_password_hash pwd,
              form_role.getD "ENGINEER"⟩])
    ∧ ((∃ u ∈ users, u.email = pyLower email.trim) →
        register_post users sess name email pwd form_role = users) := by
  refine ⟨?_, ?_, ?_, ?_⟩
  · intro h
    subst h
    simp [register_post]
  · intro hne hrole u hu
    have hemp : users.isEmpty = false := by
      cases users with
      | nil => exact absurd rfl hne
      | cons a t => rfl
    cases hfind : users.find? (fun v => v.email == pyLower email.trim) with
    | some w =>
      simp only [register_post, hemp, hfind, Option.isSome_some, if_true,
        Bool.false_eq_true, if_false] at hu
      exact Or.inl hu
    | none =>
      simp only [register_post, hemp, hfind, Option.isSome_none,
        Bool.false_eq_true, if_false, hrole] at hu
      rcases List.mem_append.mp hu with h | h
      · exact Or.inl h
      · right
        rcases List.mem_singleton.mp h with rfl
        simp [hrole]
  · intro hne hrole hnodup
    have hemp : users.isEmpty = false := by
      cases users with
      | nil => exact absurd rfl hne
      | cons a t => rfl
    have hn : users.find? (fun v => v.email == pyLower email.trim) = none := by
      rw [List.find?_eq_none]
      intro x hx
      simp only [beq_iff_eq]
      exact hnodup x hx
    simp [register_post, hn, hemp, hrole]
  · rintro ⟨u, hu, hemail⟩
    have hs : (users.find? (fun v => v.email == pyLower email.trim)).isSome = true := by
      rw [List.find?_isSome]
      exact ⟨u, hu, by simp [hemail]⟩
    simp [register_post, hs]

/-- Witness for C9 at an empty user table and an anonymous session. -/
theorem register_spec_witness :
    (([] : List User) = [] → register_post [] (Session.mk none none) "A" "a@b.c" "pw" none
        = [⟨("A" : String).trim, pyLower ("a@b.c" : String).trim,
            generate_password_hash "pw", "ADMIN"⟩])
    ∧ (([] : List User) ≠ [] → (Session.mk none none).role ≠ some "ADMIN" →
        ∀ u ∈ register_post [] (Session.mk none none) "A" "a@b.c" "pw" none,
          u ∈ ([] : List User) ∨ u.role = "ENGINEER")
    ∧ (([] : List User) ≠ [] → (Session.mk none none).role = some "ADMIN" →
        (∀ u ∈ ([] : List User), u.email ≠ pyLower ("a@b.c" : String).trim) →
        register_post [] (Session.mk none none) "A" "a@b.c" "pw" none
          = [] ++ [⟨("A" : String).trim, pyLower ("a@b.c" : String).trim, generate_password_hash "pw",
              (none : Option String).getD "ENGINEER"⟩])
    ∧ ((∃ u ∈ ([] : List User), u.email = pyLower ("a@b.c" : String).trim) →
        register_post [] (Session.mk none none) "A" "a@b.c" "pw" none = []) :=
  register_spec [] (Session.mk none none) "A" "a@b.c" "pw" none

/-! ## Inspections, invoices, CHAs, commissions -/

/-- A row of the `cha` table (the columns the commission logic reads). -/
structure CHA where
  id : Nat
  commission_rate : Option ℚ
deriving DecidableEq, Repr

/-- A row of the `invoice` table (the columns the commission logic reads). -/
structure Invoice where
  inspection_id : Nat
  fee : Option ℚ
  tax_pct : Option ℚ
  status : String
deriving DecidableEq, Repr

/-- A row of the `inspection` table (the columns the claims touch). -/
structure Inspection where
  id : Nat
  public_id : Option String
  seq_num : Option Int
  date : Option DateTime
  inspection_type : String
  status : String
  engineer_id : Option Nat
  cha_id : Option Nat
  cha_commission_pct : Option ℚ
deriving DecidableEq, Repr

/-- A row of the `commission` table. -/
structure Commission where
  inspection_id : Nat
  cha_id : Option Nat
  amount : ℚ
  status : String
deriving DecidableEq, Repr

/-- Python 3 `round` to an integer: round half to even. -/
def roundHalfEven (q : ℚ) : Int :=
  let f := ⌊q⌋
  let frac := q - f
  if frac < 1/2 then f
  else if 1/2 < frac then f + 1
  else if f % 2 = 0 then f else f + 1

/-- Python `round(x, 2)`. -/
def pyRound2 (q : ℚ) : ℚ := (roundHalfEven (q * 100) : ℚ) / 100

/-- The rate resolution of `upsert_commission_from_inspection` (src/app.py
lines 311-317): the per-inspection override when not None, else the linked
CHA's rate when the CHA exists and its rate is not None, else 0. -/
def commission_rate_of (i : Inspection) (cha : Option CHA) : ℚ :=
  match i.cha_commission_pct with
  | some r => r
  | none =>
    match cha with
    | some c =>
      match c.commission_rate with
      | some r => r
      | none => 0
    | none => 0

/-- `fee = i.invoice.fee if i.invoice else 0.0`, then `(fee or 0.0)`
(src/app.py lines 318-319). -/
def commission_fee_of (invoice : Option Invoice) : ℚ :=
  match invoice with
  | some inv => inv.fee.getD 0
  | none => 0

/-- `round((fee or 0.0) * (rate or 0.0) / 100.0, 2)` (src/app.py line 319). -/
def commission_amount_of (i : Inspection) (cha : Option CHA)
    (invoice : Option Invoice) : ℚ :=
  pyRound2 (commission_fee_of invoice * commission_rate_of i cha / 100)

/-- Mutating the first row an ORM query's `.first()` returned, modelled as
updating the first matching element of the table. -/
def dbUpdateFirst {α : Type} (p : α → Bool) (f : α → α) : List α → List α
  | [] => []
  | c :: cs => if p c then f c :: cs else c :: dbUpdateFirst p f cs

/-- Embedding of `upsert_commission_from_inspection` (src/app.py lines
309-327): compute the amount, then create a DUE commission row when none
exists for the inspection, else update the existing row's `cha_id` and
`amount` only. -/
def upsert_commission_from_inspection (i : Inspection) (cha : Option CHA)
    (invoice : Option Invoice) (table : List Commission) : List Commission :=
  let amount := commission_amount_of i cha invoice
  match table.find? (fun c => c.inspection_id == i.id) with
  | none => table ++ [⟨i.id, i.cha_id, amount, "DUE"⟩]
  | some _ =>
    dbUpdateFirst (fun c => c.inspection_id == i.id)
      (fun c => { c with cha_id := i.cha_id, amount := amount }) table

lemma countP_dbUpdateFirst {α : Type} (p : α → Bool) (f : α → α)
    (hpf : ∀ a, p (f a) = p a) (l : List α) :
    (dbUpdateFirst p f l).countP p = l.countP p := by
  induction l with
  | nil => rfl
  | cons a t ih =>
    unfold dbUpdateFirst
    by_cases ha : p a = true
    · rw [if_pos ha, List.countP_cons, List.countP_cons, hpf]
    · rw [if_neg ha, List.countP_cons, List.countP_cons, ih]

lemma filter_not_dbUpdateFirst {α : Type} (p : α → Bool) (f : α → α)
    (hpf : ∀ a, p (f a) = p a) (l : List α) :
    (dbUpdateFirst p f l).filter (fun a => !(p a)) = l.filter (fun a => !(p a)) := by
  induction l with
  | nil => rfl
  | cons a t ih =>
    unfold dbUpdateFirst
    by_cases ha : p a = true
    · rw [if_pos ha, List.filter_cons, List.filter_cons]
      simp [ha, hpf]
    · rw [if_neg ha, List.filter_cons, List.filter_cons]
      simp only [ih]

lemma find?_dbUpdateFirst {α : Type} (p : α → Bool) (f : α → α)
    (hpf : ∀ a, p (f a) = p a) (l : List α) :
    (dbUpdateFirst p f l).find? p = (l.find? p).map f := by
  induction l with
  | nil => rfl
  | cons a t ih =>
    unfold dbUpdateFirst
    by_cases ha : p a = true
    · rw [if_pos ha, List.find?_cons_of_pos _ (by rw [hpf]; exact ha),
        List.find?_cons_of_pos _ ha]
      rfl
    · rw [if_neg ha, List.find?_cons_of_neg _ ha, List.find?_cons_of_neg _ ha, ih]

lemma mem_matching_dbUpdateFirst {α : Type} (p : α → Bool) (f : α → α)
    (l : List α) (c0 : α) (hcount : l.countP p ≤ 1) (hfind : l.find? p = some c0) :
    ∀ c ∈ dbUpdateFirst p f l, p c = true → c = f c0 := by
  induction l with
  | nil => cases hfind
  | cons a t ih =>
    intro c hc hpc
    unfold dbUpdateFirst at hc
    by_cases ha : p a = true
    · rw [if_pos ha] at hc
      rw [List.find?_cons_of_pos _ ha] at hfind
      cases hfind
      rcases List.mem_cons.mp hc with h | h
      · exact h
      · exfalso
        have h0 : t.countP p = 0 := by
          rw [List.countP_cons_of_pos _ _ ha] at hcount
          omega
        exact (List.countP_eq_zero.mp h0) c h hpc
    · rw [if_neg ha] at hc
      rw [List.find?_cons_of_neg _ ha] at hfind
      rcases List.mem_cons.mp hc with h | h
      · exact absurd (h ▸ hpc) ha
      · refine ih ?_ hfind c h hpc
        rw [List.countP_cons_of_neg _ _ ha] at hcount
        exact hcount

lemma find?_some_prop {α : Type} (p : α → Bool) (l : List α) (c : α)
    (h : l.find? p = some c) : p c = true := by
  induction l with
  | nil => cases h
  | cons a t ih =>
    by_cases ha : p a = true
    · rw [List.find?_cons_of_pos _ ha] at h
      cases h
      exact ha
    · rw [List.find?_cons_of_neg _ ha] at h
      exact ih h

lemma upsert_commission_countP_one (i : Inspection) (cha : Option CHA)
    (invoice : Option Invoice) (table : List Commission)
    (h : table.countP (fun c => c.inspection_id == i.id) ≤ 1) :
    (upsert_commission_from_inspection i cha invoice table).countP
      (fun c => c.inspection_id == i.id) = 1 := by
  cases hfind : table.find? (fun c2 => c2.inspection_id == i.id) with
  | none =>
    simp only [upsert_commission_from_inspection, hfind]
    rw [List.countP_append]
    have h0 : table.countP (fun c => c.inspection_id == i.id) = 0 := by
      rw [List.countP_eq_zero]
      exact List.find?_eq_none.mp hfind
    rw [h0]
    simp
  | some c0 =>
    simp only [upsert_commission_from_inspection, hfind]
    rw [countP_dbUpdateFirst (fun c : Commission => c.inspection_id == i.id)
      (fun c : Commission =>
        { c with cha_id := i.cha_id, amount := commission_amount_of i cha invoice })
      (fun a => rfl)]
    have h1 : 0 < table.countP (fun c => c.inspection_id == i.id) := by
      rw [List.countP_pos_iff]
      exact List.find?_isSome.mp (by rw [hfind]; rfl)
    omega

lemma upsert_commission_fields (i : Inspection) (cha : Option CHA)
    (invoice : Option Invoice) (table : List Commission)
    (h : table.countP (fun c => c.inspection_id == i.id) ≤ 1) :
    ∀ c ∈ upsert_commission_from_inspection i cha invoice table,
      c.inspection_id = i.id →
      c.cha_id = i.cha_id ∧ c.amount = commission_amount_of i cha invoice
      ∧ c.status = (match table.find? (fun c2 => c2.inspection_id == i.id) with
                    | none => "DUE"
                    | some c0 => c0.status) := by
  intro c hc hcid
  cases hfind : table.find? (fun c2 => c2.inspection_id == i.id) with
  | none =>
    simp only [upsert_commission_from_inspection, hfind] at hc
    rcases List.mem_append.mp hc with h1 | h1
    · exfalso
      have := List.find?_eq_none.mp hfind c h1
      simp [hcid] at this
    · rcases List.mem_singleton.mp h1 with rfl
      exact ⟨rfl, rfl, rfl⟩
  | some c0 =>
    simp only [upsert_commission_from_inspection, hfind] at hc
    have heq := mem_matching_dbUpdateFirst
      (fun c : Commission => c.inspection_id == i.id)
      (fun c : Commission =>
        { c with cha_id := i.cha_id, amount := commission_amount_of i cha invoice })
      table c0 h hfind c hc (by simp [hcid])
    rw [heq]
    exact ⟨rfl, rfl, rfl⟩

/-- C4: the commission write is a single-row upsert: assuming the unique
constraint on `commission.inspection_id`, after the call exactly one row
carries the inspection's id, all other rows are untouched, and the carried
row has the recomputed `cha_id` and `amount` while its status is DUE when
freshly created and unchanged when the row already existed. -/
theorem upsert_commission_single_row (i : Inspection) (cha : Option CHA)
    (invoice : Option Invoice) (table : List Commission)
    (h : table.countP (fun c => c.inspection_id == i.id) ≤ 1) :
    ((upsert_commission_from_inspection i cha invoice table).countP
        (fun c => c.inspection_id == i.id) = 1)
    ∧ ((upsert_commission_from_inspection i cha invoice table).filter
          (fun c => !(c.inspection_id == i.id))
        = table.filter (fun c => !(c.inspection_id == i.id)))
    ∧ (∀ c ∈ upsert_commission_from_inspection i cha invoice table,
        c.inspection_id = i.id →
        c.cha_id = i.cha_id ∧ c.amount = commission_amount_of i cha invoice
        ∧ c.status = (match table.find? (fun c2 => c2.inspection_id == i.id) with
                      | none => "DUE"
                      | some c0 => c0.status)) := by
  refine ⟨upsert_commission_countP_one i cha invoice table h, ?_,
    upsert_commission_fields i cha invoice table h⟩
  · cases hfind : table.find? (fun c2 => c2.inspection_id == i.id) with
    | none =>
      simp only [upsert_commission_from_inspection, hfind]
      rw [List.filter_append]
      simp
    | some c0 =>
      simp only [upsert_commission_from_inspection, hfind]
      exact filter_not_dbUpdateFirst (fun c : Commission => c.inspection_id == i.id)
        (fun c : Commission =>
          { c with cha_id := i.cha_id, amount := commission_amount_of i cha invoice })
        (fun a => rfl) table

/-- Witness for C4: creating a commission for inspection 1 in an empty table. -/
theorem upsert_commission_single_row_witness :
    ((upsert_commission_from_inspection
        ⟨1, none, none, none, "PSIC", "DRAFT", none, some 7, some 25⟩
        (some ⟨7, some 10⟩) (some ⟨1, some 1000, some 18, "SENT"⟩) []).countP
        (fun c => c.inspection_id == (1 : Nat)) = 1)
    ∧ ((upsert_commission_from_inspection
          ⟨1, none, none, none, "PSIC", "DRAFT", none, some 7, some 25⟩
          (some ⟨7, some 10⟩) (some ⟨1, some 1000, some 18, "SENT"⟩) []).filter
          (fun c => !(c.inspection_id == (1 : Nat)))
        = ([] : List Commission).filter (fun c => !(c.inspection_id == (1 : Nat))))
    ∧ (∀ c ∈ upsert_commission_from_inspection
          ⟨1, none, none, none, "PSIC", "DRAFT", none, some 7, some 25⟩
          (some ⟨7, some 10⟩) (some ⟨1, some 1000, some 18, "SENT"⟩) [],
        c.inspection_id = (1 : Nat) →
        c.cha_id = some 7
        ∧ c.amount = commission_amount_of
            ⟨1, none, none, none, "PSIC", "DRAFT", none, some 7, some 25⟩
            (some ⟨7, some 10⟩) (some ⟨1, some 1000, some 18, "SENT"⟩)
        ∧ c.status = (match ([] : List Commission).find?
              (fun c2 => c2.inspection_id == (1 : Nat)) with
            | none => "DUE"
            | some c0 => c0.status)) :=
  upsert_commission_single_row
    ⟨1, none, none, none, "PSIC", "DRAFT", none, some 7, some 25⟩
    (some ⟨7, some 10⟩) (some ⟨1, some 1000, some 18, "SENT"⟩) [] (by decide)

/-- The rate as the specification words it: the inspection's override when
set (an explicit 0 included), else the linked CHA's `commission_rate` when
a CHA is linked and its rate is set, else 0. -/
def claimRate (i : Inspection) (cha : Option CHA) : ℚ :=
  match i.cha_commission_pct with
  | some r => r
  | none =>
    match cha with
    | some c => c.commission_rate.getD 0
    | none => 0

/-- The fee as the specification words it: the invoice's fee when an
invoice row exists, else 0. -/
def claimFee (invoice : Option Invoice) : ℚ :=
  match invoice with
  | some inv => inv.fee.getD 0
  | none => 0

lemma commission_rate_of_eq_claimRate (i : Inspection) (cha : Option CHA) :
    commission_rate_of i cha = claimRate i cha := by
  cases hp : i.cha_commission_pct with
  | some r => simp [commission_rate_of, claimRate, hp]
  | none =>
    cases cha with
    | none => simp [commission_rate_of, claimRate, hp]
    | some c =>
      cases hr : c.commission_rate with
      | some r => simp [commission_rate_of, claimRate, hp, hr]
      | none => simp [commission_rate_of, claimRate, hp, hr]

/-- C3: the commission row stored for the inspection carries amount
`round(fee * rate / 100, 2)` with the rate and fee resolved as the
specification describes (override first — an explicit 0 included — then
the linked CHA's rate, then 0; invoice fee when an invoice exists, else 0). -/
theorem upsert_commission_amount (i : Inspection) (cha : Option CHA)
    (invoice : Option Invoice) (table : List Commission)
    (h : table.countP (fun c => c.inspection_id == i.id) ≤ 1) :
    ((upsert_commission_from_inspection i cha invoice table).find?
        (fun c => c.inspection_id == i.id)).map Commission.amount
      = some (pyRound2 (claimFee invoice * claimRate i cha / 100)) := by
  have h1 := upsert_commission_countP_one i cha invoice table h
  have hsome : ((upsert_commission_from_inspection i cha invoice table).find?
      (fun c => c.inspection_id == i.id)).isSome := by
    rw [List.find?_isSome]
    rw [← List.countP_pos_iff]
    omega
  obtain ⟨c, hc⟩ := Option.isSome_iff_exists.mp hsome
  rw [hc]
  have hmem := List.mem_of_find?_eq_some hc
  have hpc := find?_some_prop _ _ c hc
  have hcid : c.inspection_id = i.id := by simpa using hpc
  have hfields := (upsert_commission_fields i cha invoice table h c hmem hcid).2.1
  show some c.amount = _
  rw [hfields]
  unfold commission_amount_of
  rw [commission_rate_of_eq_claimRate]
  rfl

/-- Witness for C3: override rate 25%, invoice fee 1000, empty table. -/
theorem upsert_commission_amount_witness :
    ((upsert_commission_from_inspection
        ⟨1, none, none, none, "PSIC", "DRAFT", none, some 7, some 25⟩
        (some ⟨7, some 10⟩) (some ⟨1, some 1000, some 18, "SENT"⟩) []).find?
        (fun c => c.inspection_id == (1 : Nat))).map Commission.amount
      = some (pyRound2 (claimFee (some ⟨1, some 1000, some 18, "SENT"⟩)
        * claimRate ⟨1, none, none, none, "PSIC", "DRAFT", none, some 7, some 25⟩
            (some ⟨7, some 10⟩) / 100)) :=
  upsert_commission_amount
    ⟨1, none, none, none, "PSIC", "DRAFT", none, some 7, some 25⟩
    (some ⟨7, some 10⟩) (some ⟨1, some 1000, some 18, "SENT"⟩) [] (by decide)

/-! ## The status endpoint -/

/-- Responses of the modelled handlers. -/
inductive Resp where
  | notFound
  | redirect (target : String)
deriving DecidableEq, Repr

/-- Embedding of the `inspection_status` POST handler (src/app.py lines
763-773), after the `role_required(ADMIN, ENGINEER)` gate: look the
inspection up (404 when absent), reject an engineer who does not own it,
otherwise assign the submitted form string to `status` unchecked. -/
def inspection_status (sess : Session) (inspection_id : Nat)
    (form_status : String) (table : List Inspection) : List Inspection × Resp :=
  match table.find? (fun i => i.id == inspection_id) with
  | none => (table, Resp.notFound)
  | some i =>
    if sess.role = some "ENGINEER" ∧ i.engineer_id ≠ sess.user_id then
      (table, Resp.redirect "inspection_detail")
    else
      (dbUpdateFirst (fun j => j.id == inspection_id)
        (fun j => { j with status := form_status }) table,
       Resp.redirect "inspection_detail")

/-- C7: for any submitted string `s` — validated nowhere, and with no
restriction on the predecessor status — an authorized POST sets the
inspection's status to exactly `s` and touches no other row. -/
theorem inspection_status_spec (sess : Session) (inspection_id : Nat)
    (form_status : String) (table : List Inspection) (i : Inspection)
    (hf : table.find? (fun j => j.id == inspection_id) = some i)
    (hauth : ¬(sess.role = some "ENGINEER" ∧ i.engineer_id ≠ sess.user_id)) :
    ((inspection_status sess inspection_id form_status table).2
        = Resp.redirect "inspection_detail")
    ∧ ((inspection_status sess inspection_id form_status table).1.find?
          (fun j => j.id == inspection_id)
        = some { i with status := form_status })
    ∧ ((inspection_status sess inspection_id form_status table).1.filter
          (fun j => !(j.id == inspection_id))
        = table.filter (fun j => !(j.id == inspection_id))) := by
  have hun : inspection_status sess inspection_id form_status table
      = (dbUpdateFirst (fun j => j.id == inspection_id)
          (fun j => { j with status := form_status }) table,
         Resp.redirect "inspection_detail") := by
    unfold inspection_status
    rw [hf]
    simp only [if_neg hauth]
  rw [hun]
  refine ⟨rfl, ?_, ?_⟩
  · rw [find?_dbUpdateFirst (fun j : Inspection => j.id == inspection_id)
      (fun j : Inspection => { j with status := form_status }) (fun a => rfl), hf]
    rfl
  · exact filter_not_dbUpdateFirst (fun j : Inspection => j.id == inspection_id)
      (fun j : Inspection => { j with status := form_status }) (fun a => rfl) table

/-- Witness for C7: an admin sets a status string outside the declared
status set on the only inspection. -/
theorem inspection_status_spec_witness :
    ((inspection_status (Session.mk (some 1) (some "ADMIN")) 1 "NOT_A_STATUS"
        [⟨1, none, none, none, "PSIC", "DRAFT", some 2, none, none⟩]).2
        = Resp.redirect "inspection_detail")
    ∧ ((inspection_status (Session.mk (some 1) (some "ADMIN")) 1 "NOT_A_STATUS"
          [⟨1, none, none, none, "PSIC", "DRAFT", some 2, none, none⟩]).1.find?
          (fun j => j.id == (1 : Nat))
        = some { (⟨1, none, none, none, "PSIC", "DRAFT", some 2, none, none⟩ : Inspection)
            with status := "NOT_A_STATUS" })
    ∧ ((inspection_status (Session.mk (some 1) (some "ADMIN")) 1 "NOT_A_STATUS"
          [⟨1, none, none, none, "PSIC", "DRAFT", some 2, none, none⟩]).1.filter
          (fun j => !(j.id == (1 : Nat)))
        = [(⟨1, none, none, none, "PSIC", "DRAFT", some 2, none, none⟩ : Inspection)].filter
            (fun j => !(j.id == (1 : Nat)))) :=
  inspection_status_spec (Session.mk (some 1) (some "ADMIN")) 1 "NOT_A_STATUS"
    [⟨1, none, none, none, "PSIC", "DRAFT", some 2, none, none⟩]
    ⟨1, none, none, none, "PSIC", "DRAFT", some 2, none, none⟩
    (by decide) (by decide)

/-! ## Decimal rendering, SQLite `strftime('%Y')` and the public-ID generator -/

/-- One decimal digit as a character (only applied to values below 10). -/
def digitChar (d : Nat) : Char :=
  match d with
  | 0 => '0' | 1 => '1' | 2 => '2' | 3 => '3' | 4 => '4'
  | 5 => '5' | 6 => '6' | 7 => '7' | 8 => '8' | _ => '9'

/-- The value of a decimal digit character. -/
def digitVal (c : Char) : Nat :=
  match c with
  | '0' => 0 | '1' => 1 | '2' => 2 | '3' => 3 | '4' => 4
  | '5' => 5 | '6' => 6 | '7' => 7 | '8' => 8 | '9' => 9
  | _ => 0

/-- Digit extraction with explicit fuel (`fuel > n` suffices), so that the
definition is structurally recursive and evaluates inside the kernel. -/
def natReprAux (fuel n : Nat) : List Char :=
  match fuel with
  | 0 => []
  | fuel + 1 =>
    if n < 10 then [digitChar n]
    else natReprAux fuel (n / 10) ++ [digitChar (n % 10)]

/-- Most-significant-first decimal digits of a natural number. -/
def natRepr (n : Nat) : List Char := natReprAux (n + 1) n

lemma natReprAux_congr (n : Nat) : ∀ fuel1 fuel2 : Nat, n < fuel1 → n < fuel2 →
    natReprAux fuel1 n = natReprAux fuel2 n := by
  induction n using Nat.strong_induction_on with
  | _ n ih =>
    intro fuel1 fuel2 h1 h2
    cases fuel1 with
    | zero => omega
    | succ f1 =>
      cases fuel2 with
      | zero => omega
      | succ f2 =>
        by_cases hn : n < 10
        · simp only [natReprAux, if_pos hn]
        · simp only [natReprAux, if_neg hn]
          have hlt : n / 10 < n := Nat.div_lt_self (by omega) (by omega)
          rw [ih (n / 10) hlt f1 f2 (by omega) (by omega)]

lemma natRepr_unfold (n : Nat) :
    natRepr n = if n < 10 then [digitChar n]
      else natRepr (n / 10) ++ [digitChar (n % 10)] := by
  show natReprAux (n + 1) n = _
  by_cases hn : n < 10
  · simp only [natReprAux, if_pos hn]
  · simp only [natReprAux, if_neg hn]
    have hlt : n / 10 < n := Nat.div_lt_self (by omega) (by omega)
    rw [natReprAux_congr (n / 10) n (n / 10 + 1) (by omega) (by omega)]
    rfl

/-- Python `str` of an int. -/
def intRepr (y : Int) : List Char :=
  if y < 0 then '-' :: natRepr (-y).toNat else natRepr y.toNat

/-- SQLite `strftime('%Y', d)`: the year, zero-padded to at least 4 digits. -/
def sqliteYear (y : Int) : List Char :=
  if y < 0 then
    '-' :: (List.replicate (4 - (natRepr (-y).toNat).length) '0' ++ natRepr (-y).toNat)
  else List.replicate (4 - (natRepr y.toNat).length) '0' ++ natRepr y.toNat

/-- Reading decimal digits back, most significant first. -/
def parseNat (cs : List Char) : Nat :=
  cs.foldl (fun acc c => acc * 10 + digitVal c) 0

lemma digitVal_digitChar (d : Nat) (h : d < 10) : digitVal (digitChar d) = d := by
  interval_cases d <;> rfl

lemma parseNat_append_singleton (cs : List Char) (c : Char) :
    parseNat (cs ++ [c]) = parseNat cs * 10 + digitVal c := by
  unfold parseNat
  rw [List.foldl_append]
  rfl

lemma parseNat_natRepr (n : Nat) : parseNat (natRepr n) = n := by
  induction n using Nat.strong_induction_on with
  | _ n ih =>
    by_cases h : n < 10
    · rw [natRepr_unfold, if_pos h]
      show 0 * 10 + digitVal (digitChar n) = n
      rw [digitVal_digitChar n h]
      omega
    · rw [natRepr_unfold, if_neg h]
      rw [parseNat_append_singleton]
      rw [ih (n / 10) (Nat.div_lt_self (by omega) (by omega))]
      rw [digitVal_digitChar _ (Nat.mod_lt n (by omega))]
      omega

lemma parseNat_replicate_zero_append (k : Nat) (cs : List Char) :
    parseNat (List.replicate k '0' ++ cs) = parseNat cs := by
  induction k with
  | zero => rfl
  | succ k ih =>
    rw [List.replicate_succ, List.cons_append]
    have hstep : parseNat ('0' :: (List.replicate k '0' ++ cs))
        = parseNat (List.replicate k '0' ++ cs) := by
      unfold parseNat
      rw [List.foldl_cons]
      rfl
    rw [hstep, ih]

lemma one_le_length_natRepr (n : Nat) : 1 ≤ (natRepr n).length := by
  by_cases h : n < 10
  · rw [natRepr_unfold, if_pos h]
    rfl
  · rw [natRepr_unfold, if_neg h]
    rw [List.length_append]
    simp only [List.length_singleton]
    omega

lemma two_le_length_natRepr (n : Nat) (hn : 10 ≤ n) : 2 ≤ (natRepr n).length := by
  rw [natRepr_unfold, if_neg (by omega)]
  rw [List.length_append]
  have := one_le_length_natRepr (n / 10)
  simp only [List.length_singleton]
  omega

lemma three_le_length_natRepr (n : Nat) (hn : 100 ≤ n) : 3 ≤ (natRepr n).length := by
  rw [natRepr_unfold, if_neg (by omega)]
  rw [List.length_append]
  have := two_le_length_natRepr (n / 10) (by omega)
  simp only [List.length_singleton]
  omega

lemma four_le_length_natRepr (n : Nat) (hn : 1000 ≤ n) : 4 ≤ (natRepr n).length := by
  rw [natRepr_unfold, if_neg (by omega)]
  rw [List.length_append]
  have := three_le_length_natRepr (n / 10) (by omega)
  simp only [List.length_singleton]
  omega

/-- For years of at least four digits the SQLite rendering and Python's
`str` agree, and rendering equality is year equality. -/
lemma sqliteYear_eq_intRepr_iff (jy dy : Int) (hj : 0 ≤ jy) (hdy : 1000 ≤ dy) :
    sqliteYear jy = intRepr dy ↔ jy = dy := by
  constructor
  · intro heq
    unfold sqliteYear at heq
    rw [if_neg (by omega)] at heq
    unfold intRepr at heq
    rw [if_neg (by omega)] at heq
    have hparse := congrArg parseNat heq
    rw [parseNat_replicate_zero_append, parseNat_natRepr, parseNat_natRepr] at hparse
    omega
  · intro heq
    subst heq
    unfold sqliteYear intRepr
    rw [if_neg (by omega), if_neg (by omega)]
    have h4 : 4 ≤ (natRepr jy.toNat).length := four_le_length_natRepr _ (by omega)
    rw [show 4 - (natRepr jy.toNat).length = 0 from by omega]
    rw [List.replicate_zero, List.nil_append]

/-- `InspectionType.CODE_TO_ID_TOKEN.get(t, "GEN")` (src/app.py lines
50-54 and 280). -/
def CODE_TO_ID_TOKEN (t : String) : String :=
  if t = "PSIC" then "PSIC"
  else if t = "CE_VAL" then "CE-VAL"
  else if t = "CE_FIT" then "CE-FIT"
  else "GEN"

/-- Python truthiness of the `public_id` column: `None` and `""` are falsy. -/
def truthyStr : Option String → Bool
  | none => false
  | some s => !(s.isEmpty)

/-- `f"{next_seq:03d}"`: zero-pad to width 3 (the sign takes one column). -/
def pyFormat03 (n : Int) : List Char :=
  if n < 0 then
    '-' :: (List.replicate (2 - (natRepr (-n).toNat).length) '0' ++ natRepr (-n).toNat)
  else List.replicate (3 - (natRepr n.toNat).length) '0' ++ natRepr n.toNat

/-- SQL `MAX` over an integer column: NULL on an empty set. -/
def sqlMax (l : List Int) : Option Int :=
  l.foldl (fun acc x =>
    match acc with
    | none => some x
    | some m => some (max m x)) none

/-- The contribution of one stored row to the generator's `MAX(seq_num)`
query (src/app.py lines 282-287): the row's `seq_num` when its type
matches and `strftime('%Y', date)` equals `str(year)`; a NULL date or a
NULL `seq_num` drops out, as in SQL. -/
def codeYearEntry (itype : String) (ys : List Char) (j : Inspection) : Option Int :=
  match j.date with
  | some jd =>
    if j.inspection_type = itype ∧ sqliteYear jd.year = ys then j.seq_num else none
  | none => none

/-- The same row filter as the specification words it: same inspection
type and a date in the given calendar year. -/
def specYearEntry (itype : String) (y : Int) (j : Inspection) : Option Int :=
  match j.date with
  | some jd =>
    if j.inspection_type = itype ∧ jd.year = y then j.seq_num else none
  | none => none

/-- The generator's `MAX(seq_num)` query. -/
def max_seq_query (table : List Inspection) (itype : String) (ys : List Char) :
    Option Int :=
  sqlMax (table.filterMap (codeYearEntry itype ys))

/-- The year's sequence numbers as the specification describes them. -/
def specSeqs (table : List Inspection) (itype : String) (y : Int) : List Int :=
  table.filterMap (specYearEntry itype y)

/-- Embedding of `generate_public_id` (src/app.py lines 275-290): return
unchanged when a (truthy) `public_id` exists, else assign the next
sequence number in the type-year scope and the formatted public id. -/
def generate_public_id (table : List Inspection) (now : DateTime)
    (i : Inspection) : Inspection :=
  if truthyStr i.public_id then i
  else
    let year := (i.date.getD now).year
    let type_token := CODE_TO_ID_TOKEN i.inspection_type
    let max_seq := max_seq_query table i.inspection_type (intRepr year)
    let next_seq := max_seq.getD 0 + 1
    { i with
      seq_num := some next_seq,
      public_id := some ("INS-" ++ type_token ++ "-" ++ String.mk (intRepr year)
        ++ "-" ++ String.mk (pyFormat03 next_seq)) }

lemma codeYearEntry_eq_specYearEntry (itype : String) (dy : Int) (hdy : 1000 ≤ dy)
    (j : Inspection) (hj : ∀ jd, j.date = some jd → 0 ≤ jd.year) :
    codeYearEntry itype (intRepr dy) j = specYearEntry itype dy j := by
  unfold codeYearEntry specYearEntry
  cases hjd : j.date with
  | none => rfl
  | some jd =>
    have h0 : 0 ≤ jd.year := hj jd hjd
    refine if_congr ?_ rfl rfl
    constructor
    · rintro ⟨ha, hb⟩
      exact ⟨ha, (sqliteYear_eq_intRepr_iff jd.year dy h0 hdy).mp hb⟩
    · rintro ⟨ha, hb⟩
      exact ⟨ha, (sqliteYear_eq_intRepr_iff jd.year dy h0 hdy).mpr hb⟩

lemma filters_eq (table : List Inspection) (itype : String) (dy : Int)
    (hdy : 1000 ≤ dy)
    (hjy : ∀ j ∈ table, ∀ jd, j.date = some jd → 0 ≤ jd.year) :
    table.filterMap (codeYearEntry itype (intRepr dy))
      = table.filterMap (specYearEntry itype dy) := by
  induction table with
  | nil => rfl
  | cons j t ih =>
    rw [List.filterMap_cons, List.filterMap_cons]
    rw [codeYearEntry_eq_specYearEntry itype dy hdy j (hjy j (List.mem_cons_self j t))]
    rw [ih (fun j2 hj2 => hjy j2 (List.mem_cons_of_mem j hj2))]

lemma specSeqs_nonneg (table : List Inspection) (itype : String) (y : Int)
    (hjs : ∀ j ∈ table, ∀ s, j.seq_num = some s → 0 ≤ s) :
    ∀ x ∈ specSeqs table itype y, 0 ≤ x := by
  intro x hx
  obtain ⟨j, hj, hjx⟩ := List.mem_filterMap.mp hx
  unfold specYearEntry at hjx
  split at hjx
  · split_ifs at hjx with hcond
    exact hjs j hj x hjx
  · cases hjx

lemma sqlMax_fold_nonneg (l : List Int) (acc : Option Int)
    (hacc : 0 ≤ acc.getD 0) (hl : ∀ x ∈ l, 0 ≤ x) :
    0 ≤ (l.foldl (fun acc x =>
      match acc with
      | none => some x
      | some m => some (max m x)) acc).getD 0 := by
  induction l generalizing acc with
  | nil => exact hacc
  | cons a t ih =>
    rw [List.foldl_cons]
    refine ih _ ?_ (fun x hx => hl x (List.mem_cons_of_mem a hx))
    cases acc with
    | none => simpa using hl a (List.mem_cons_self a t)
    | some m =>
      simp only [Option.getD_some] at hacc ⊢
      exact le_trans hacc (le_max_left m a)

lemma sqlMax_getD_nonneg (l : List Int) (hl : ∀ x ∈ l, 0 ≤ x) :
    0 ≤ (sqlMax l).getD 0 :=
  sqlMax_fold_nonneg l none (by simp) hl

/-- C1: the public-ID generator. For an inspection with no `public_id`,
`seq_num` becomes one plus the maximum stored `seq_num` of the same
inspection type and calendar year (1 when there is none) and `public_id`
becomes "INS-" ++ token ++ "-" ++ year ++ "-" ++ the sequence number
zero-padded to 3 digits; an inspection with a (non-empty) `public_id` is
returned unchanged. -/
theorem generate_public_id_spec (table : List Inspection) (now : DateTime)
    (i : Inspection) (d : DateTime)
    (hd : i.date = some d) (hy : 1000 ≤ d.year)
    (hjy : ∀ j ∈ table, ∀ jd, j.date = some jd → 0 ≤ jd.year)
    (hjs : ∀ j ∈ table, ∀ s, j.seq_num = some s → 0 ≤ s) :
    (i.public_id = none →
      generate_public_id table now i
        = { i with
            seq_num := some ((sqlMax (specSeqs table i.inspection_type d.year)).getD 0 + 1),
            public_id := some ("INS-" ++ CODE_TO_ID_TOKEN i.inspection_type ++ "-"
              ++ String.mk (intRepr d.year) ++ "-"
              ++ String.mk (List.replicate
                    (3 - (natRepr ((sqlMax (specSeqs table i.inspection_type d.year)).getD 0 + 1).toNat).length) '0'
                  ++ natRepr ((sqlMax (specSeqs table i.inspection_type d.year)).getD 0 + 1).toNat)) })
    ∧ (∀ s, i.public_id = some s → s ≠ "" → generate_public_id table now i = i) := by
  constructor
  · intro hpid
    have htr : truthyStr i.public_id = false := by rw [hpid]; rfl
    have hmax : max_seq_query table i.inspection_type (intRepr d.year)
        = sqlMax (specSeqs table i.inspection_type d.year) := by
      unfold max_seq_query specSeqs
      rw [filters_eq table i.inspection_type d.year hy hjy]
    have hnn : 0 ≤ (sqlMax (specSeqs table i.inspection_type d.year)).getD 0 :=
      sqlMax_getD_nonneg _ (specSeqs_nonneg table i.inspection_type d.year hjs)
    have hfmt : pyFormat03 ((sqlMax (specSeqs table i.inspection_type d.year)).getD 0 + 1)
        = List.replicate
            (3 - (natRepr ((sqlMax (specSeqs table i.inspection_type d.year)).getD 0 + 1).toNat).length) '0'
          ++ natRepr ((sqlMax (specSeqs table i.inspection_type d.year)).getD 0 + 1).toNat := by
      unfold pyFormat03
      rw [if_neg (by omega)]
    simp only [generate_public_id, htr, Bool.false_eq_true, if_false, hd,
      Option.getD_some, hmax, hfmt]
  · intro s hs hsne
    have htr : truthyStr i.public_id = true := by
      rw [hs]
      have hb : s.isEmpty = false := by
        cases hb2 : s.isEmpty
        · rfl
        · exact absurd ((String.isEmpty_iff s).mp hb2) hsne
      simp [truthyStr, hb]
    unfold generate_public_id
    rw [if_pos htr]

/-- Witness for C1: a fresh PSIC inspection of 2025 next to one stored
PSIC inspection of 2025 with sequence number 1, and an inspection whose
public id is already set. -/
theorem generate_public_id_spec_witness :
    ((⟨2, none, none, some ⟨2025⟩, "PSIC", "DRAFT", none, none, none⟩ : Inspection).public_id = none →
      generate_public_id
          [⟨1, some "INS-PSIC-2025-001", some 1, some ⟨2025⟩, "PSIC", "DRAFT", none, none, none⟩]
          ⟨2026⟩ ⟨2, none, none, some ⟨2025⟩, "PSIC", "DRAFT", none, none, none⟩
        = { (⟨2, none, none, some ⟨2025⟩, "PSIC", "DRAFT", none, none, none⟩ : Inspection) with
            seq_num := some ((sqlMax (specSeqs
                [⟨1, some "INS-PSIC-2025-001", some 1, some ⟨2025⟩, "PSIC", "DRAFT", none, none, none⟩]
                (⟨2, none, none, some ⟨2025⟩, "PSIC", "DRAFT", none, none, none⟩ : Inspection).inspection_type
                (⟨2025⟩ : DateTime).year)).getD 0 + 1),
            public_id := some ("INS-"
              ++ CODE_TO_ID_TOKEN (⟨2, none, none, some ⟨2025⟩, "PSIC", "DRAFT", none, none, none⟩ : Inspection).inspection_type
              ++ "-" ++ String.mk (intRepr (⟨2025⟩ : DateTime).year) ++ "-"
              ++ String.mk (List.replicate
                    (3 - (natRepr ((sqlMax (specSeqs
                      [⟨1, some "INS-PSIC-2025-001", some 1, some ⟨2025⟩, "PSIC", "DRAFT", none, none, none⟩]
                      (⟨2, none, none, some ⟨2025⟩, "PSIC", "DRAFT", none, none, none⟩ : Inspection).inspection_type
                      (⟨2025⟩ : DateTime).year)).getD 0 + 1).toNat).length) '0'
                  ++ natRepr ((sqlMax (specSeqs
                      [⟨1, some "INS-PSIC-2025-001", some 1, some ⟨2025⟩, "PSIC", "DRAFT", none, none, none⟩]
                      (⟨2, none, none, some ⟨2025⟩, "PSIC", "DRAFT", none, none, none⟩ : Inspection).inspection_type
                      (⟨2025⟩ : DateTime).year)).getD 0 + 1).toNat)) })
    ∧ (∀ s, (⟨2, none, none, some ⟨2025⟩, "PSIC", "DRAFT", none, none, none⟩ : Inspection).public_id = some s → s ≠ "" →
        generate_public_id
          [⟨1, some "INS-PSIC-2025-001", some 1, some ⟨2025⟩, "PSIC", "DRAFT", none, none, none⟩]
          ⟨2026⟩ ⟨2, none, none, some ⟨2025⟩, "PSIC", "DRAFT", none, none, none⟩
        = ⟨2, none, none, some ⟨2025⟩, "PSIC", "DRAFT", none, none, none⟩) :=
  generate_public_id_spec
    [⟨1, some "INS-PSIC-2025-001", some 1, some ⟨2025⟩, "PSIC", "DRAFT", none, none, none⟩]
    ⟨2026⟩ ⟨2, none, none, some ⟨2025⟩, "PSIC", "DRAFT", none, none, none⟩ ⟨2025⟩
    rfl (by decide)
    (by
      intro j hj jd hjd
      rcases List.mem_singleton.mp hj with rfl
      cases hjd
      decide)
    (by
      intro j hj s hs
      rcases List.mem_singleton.mp hj with rfl
      cases hs
      decide)

/-- Counterexample to C1 as stated, at a reachable datetime year below
1000: SQLite's `strftime('%Y')` zero-pads the stored year-500 date to
"0500" while Python's `str(year)` gives "500", so the type-year filter
matches nothing and the generator assigns sequence number 1, although one
stored PSIC inspection of calendar year 500 already carries seq_num 1 and
the claim demands 1 + max = 2. -/
theorem generate_public_id_spec_counterexample :
    ((generate_public_id
        [⟨1, some "INS-PSIC-0500-001", some 1, some ⟨500⟩, "PSIC", "DRAFT", none, none, none⟩]
        ⟨2026⟩ ⟨2, none, none, some ⟨500⟩, "PSIC", "DRAFT", none, none, none⟩).seq_num
      = some 1)
    ∧ ((sqlMax (specSeqs
        [⟨1, some "INS-PSIC-0500-001", some 1, some ⟨500⟩, "PSIC", "DRAFT", none, none, none⟩]
        "PSIC" 500)).getD 0 + 1 = 2)
    ∧ ((generate_public_id
        [⟨1, some "INS-PSIC-0500-001", some 1, some ⟨500⟩, "PSIC", "DRAFT", none, none, none⟩]
        ⟨2026⟩ ⟨2, none, none, some ⟨500⟩, "PSIC", "DRAFT", none, none, none⟩).seq_num
      ≠ some ((sqlMax (specSeqs
          [⟨1, some "INS-PSIC-0500-001", some 1, some ⟨500⟩, "PSIC", "DRAFT", none, none, none⟩]
          "PSIC" 500)).getD 0 + 1)) := by
  refine ⟨by decide, by decide, by decide⟩

end App
